import Mathlib

/-!
Verification of the two console programs in this repository:
a profile/age classifier (lecture_2/main.py) and a student grade
tracker (lecture_3/main.py).  Grades are modelled as rationals,
Python strings as lists of characters (`PyStr`); the interactive
loops are modelled as functions over the list of entered inputs.
-/

namespace GradeTracker

/-- A Python string, modelled as its list of characters. -/
abbrev PyStr := List Char

/-- Models Python `str.lower()` over ASCII strings. -/
def pyLower (s : PyStr) : PyStr :=
  s.map Char.toLower

/-- Models Python `str.strip()`: remove leading and trailing whitespace. -/
def pyStrip (s : PyStr) : PyStr :=
  (((s.dropWhile Char.isWhitespace).reverse).dropWhile Char.isWhitespace).reverse

/-- Models Python `str.isalpha()` over ASCII strings: true iff the string is
nonempty and every character is a letter. -/
def pyIsalpha (s : PyStr) : Bool :=
  !s.isEmpty && s.all Char.isAlpha

/-- A student record: `{"name": ..., "grades": [...]}` in lecture_3/main.py. -/
structure Student where
  name : PyStr
  grades : List ℚ
  deriving DecidableEq, Repr

/-- `validate_student_name` from lecture_3/main.py: the name must contain
only letters (`name.isalpha()`). -/
def validate_student_name (name : PyStr) : Bool :=
  pyIsalpha name

/-- `validate_grade` from lecture_3/main.py: `0 <= grade <= 100`. -/
def validate_grade (grade : ℚ) : Bool :=
  decide (0 ≤ grade) && decide (grade ≤ 100)

/-- `find_student_by_name` from lecture_3/main.py: first student whose name
matches case-insensitively, if any. -/
def find_student_by_name (students : List Student) (name : PyStr) : Option Student :=
  students.find? (fun student => pyLower student.name == pyLower name)

/-- `is_duplicate_student` from lecture_3/main.py: some existing student's
name matches case-insensitively. -/
def is_duplicate_student (students : List Student) (name : PyStr) : Bool :=
  students.any (fun student => pyLower student.name == pyLower name)

/-- `calculate_average` from lecture_3/main.py: `None` on an empty list,
otherwise `sum(grades) / len(grades)`. -/
def calculate_average (grades : List ℚ) : Option ℚ :=
  if grades.isEmpty then none
  else some (grades.sum / grades.length)

/-- The dictionary returned by `calculate_summary_statistics`. -/
structure SummaryStats where
  highest : Option ℚ
  lowest : Option ℚ
  overall : Option ℚ
  deriving DecidableEq, Repr

/-- Python `max` over a nonempty list of rationals, as a fold over the tail
starting from the head: replace the current value only when the new item is
strictly greater. -/
def pyMaxQ (a : ℚ) (l : List ℚ) : ℚ :=
  l.foldl (fun acc x => if acc < x then x else acc) a

/-- Python `min` over a nonempty list of rationals, as a fold over the tail
starting from the head: replace the current value only when the new item is
strictly smaller. -/
def pyMinQ (a : ℚ) (l : List ℚ) : ℚ :=
  l.foldl (fun acc x => if x < acc then x else acc) a

/-- The local list `averages` built by the loop in
`calculate_summary_statistics`: the non-`None` per-student averages, in
roster order. -/
def roster_averages (students : List Student) : List ℚ :=
  students.filterMap (fun student => calculate_average student.grades)

/-- `calculate_summary_statistics` from lecture_3/main.py: collect the
non-`None` per-student averages; if none, all fields are `None`; otherwise
max, min and mean of the collected averages. -/
def calculate_summary_statistics (students : List Student) : SummaryStats :=
  match roster_averages students with
  | [] => ⟨none, none, none⟩
  | a :: rest =>
      ⟨some (pyMaxQ a rest), some (pyMinQ a rest),
        some ((a :: rest).sum / (a :: rest).length)⟩

/-- The sort key used by `find_top_performer_data`:
`calculate_average(student["grades"]) or 0` (Python `or` turns `None`,
and a zero average, into `0`; both give the value `0`). -/
def avgKey (student : Student) : ℚ :=
  (calculate_average student.grades).getD 0

/-- Python `max(l, key=f)` over a nonempty list, as a fold over the tail
starting from the head: the current element is replaced only when the new
element's key is strictly greater, so the first maximum is kept. -/
def pyMaxBy {α : Type} (key : α → ℚ) (a : α) (l : List α) : α :=
  l.foldl (fun acc x => if key acc < key x then x else acc) a

/-- The local list `students_with_grades` in `find_top_performer_data`:
the students whose grades list is nonempty, in roster order. -/
def students_with_grades (students : List Student) : List Student :=
  students.filter (fun student => !student.grades.isEmpty)

/-- `find_top_performer_data` from lecture_3/main.py: filter the students
with a nonempty grades list; `(None, None)` when there are none, otherwise
the `max` by average together with its average. -/
def find_top_performer_data (students : List Student) : Option Student × Option ℚ :=
  match students_with_grades students with
  | [] => (none, none)
  | s :: rest =>
      let top_student := pyMaxBy avgKey s rest
      (some top_student, calculate_average top_student.grades)

/-- Value of a list of decimal digit characters, most significant first. -/
def natOfDigits (l : List Char) : Nat :=
  l.foldl (fun a c => 10 * a + (c.toNat - 48)) 0

/-- Unsigned part of a plain decimal literal: digits with an optional
fractional part (`"105"`, `"87.5"`, `".5"`, `"5."`). -/
def parseUnsigned (body : List Char) : Option ℚ :=
  match body.splitOn '.' with
  | [ip] =>
      if !ip.isEmpty && ip.all Char.isDigit then some (natOfDigits ip : ℚ)
      else none
  | [ip, fp] =>
      if ip.all Char.isDigit && fp.all Char.isDigit && !(ip.isEmpty && fp.isEmpty)
      then some ((natOfDigits ip : ℚ) + (natOfDigits fp : ℚ) / (10 : ℚ) ^ fp.length)
      else none
  | _ => none

/-- Models Python `float()` on the plain decimal literals entered at the
grade prompt: an optional sign, then digits with an optional fractional
part.  Exponent notation, underscores and the special values are not
modelled; on such strings the model returns `none` (a rejected input). -/
def parseDecimal (s : PyStr) : Option ℚ :=
  match s with
  | '-' :: rest => (parseUnsigned rest).map (fun q => -q)
  | '+' :: rest => parseUnsigned rest
  | _ => parseUnsigned s

/-- `get_grade_input` from lecture_3/main.py, as a function of the raw line:
strip and lowercase it; `'done'` parses to `None`, otherwise try `float`. -/
def get_grade_input (raw : PyStr) : PyStr × Option ℚ :=
  let grade_input := pyLower (pyStrip raw)
  if grade_input == "done".toList then (grade_input, none)
  else (grade_input, parseDecimal grade_input)

/-- The `while` loop of `add_grades_to_student`, over the list of raw input
lines: stop at `'done'` (or when input runs out), skip inputs that fail to
parse or fail `validate_grade`, append valid grades and count them. -/
def add_grades_go (student : Student) (grades_added : Nat) :
    List PyStr → Student × Nat
  | [] => (student, grades_added)
  | raw :: rest =>
      let p := get_grade_input raw
      if p.1 == "done".toList then (student, grades_added)
      else
        match p.2 with
        | none => add_grades_go student grades_added rest
        | some grade =>
            if validate_grade grade then
              add_grades_go { student with grades := student.grades ++ [grade] }
                (grades_added + 1) rest
            else add_grades_go student grades_added rest

/-- `add_grades_to_student` from lecture_3/main.py: run the grade-entry loop
starting with zero grades added; returns the updated student and the count
of grades added. -/
def add_grades_to_student (student : Student) (inputs : List PyStr) : Student × Nat :=
  add_grades_go student 0 inputs

/-- `create_new_student` from lecture_3/main.py. -/
def create_new_student (name : PyStr) : Student :=
  { name := name, grades := [] }

/-- Outcome of `add_student`: which message was printed. -/
inductive AddResult where
  | invalidName
  | duplicate
  | added
  deriving DecidableEq, Repr

/-- `add_student` from lecture_3/main.py, as a function of the entered
(stripped) name: reject non-alphabetic names, then case-insensitive
duplicates, otherwise append a new student with an empty grades list. -/
def add_student (students : List Student) (name : PyStr) :
    List Student × AddResult :=
  if !validate_student_name name then (students, .invalidName)
  else if is_duplicate_student students name then (students, .duplicate)
  else (students ++ [create_new_student name], .added)

/-- The mutation performed by `add_grades`: `find_student_by_name` returns
the first case-insensitive match and `add_grades_to_student` mutates it in
place, so the roster is the original list with the first matching student
replaced; when no student matches, the roster is unchanged. -/
def update_first_match : List Student → PyStr → List PyStr → List Student
  | [], _, _ => []
  | s :: rest, name, inputs =>
      if pyLower s.name == pyLower name then
        (add_grades_to_student s inputs).1 :: rest
      else s :: update_first_match rest name inputs

/-- `add_grades` from lecture_3/main.py, as a function of the roster, the
entered name and the grade-entry lines: an empty roster and an unknown name
are reported as errors and leave the roster unchanged. -/
def add_grades (students : List Student) (name : PyStr) (inputs : List PyStr) :
    List Student :=
  if students.isEmpty then students
  else update_first_match students name inputs

/-- One menu action of the main loop of lecture_3/main.py, with the console
input it consumes. -/
inductive MenuOp where
  | addStudent (name : PyStr)
  | addGrades (name : PyStr) (inputs : List PyStr)
  | showReport
  | findTopPerformer

/-- Effect of one menu action on the roster.  `show_report` and
`find_top_performer` only read the list and print, so they leave it
unchanged. -/
def apply_menu_op (students : List Student) : MenuOp → List Student
  | .addStudent name => (add_student students name).1
  | .addGrades name inputs => add_grades students name inputs
  | .showReport => students
  | .findTopPerformer => students

/-- The roster after a sequence of menu actions, starting from the empty
list created in `main`. -/
def run_menu (ops : List MenuOp) : List Student :=
  ops.foldl apply_menu_op []

/-- The roster invariant of the spec: all names purely alphabetic, all
pairs of names distinct case-insensitively, all grades in `[0, 100]`. -/
def roster_invariant (students : List Student) : Prop :=
  (∀ s ∈ students, validate_student_name s.name = true) ∧
  List.Pairwise (fun a b => pyLower a.name ≠ pyLower b.name) students ∧
  (∀ s ∈ students, ∀ g ∈ s.grades, 0 ≤ g ∧ g ≤ 100)

end GradeTracker

namespace Profile

/-- `generate_profile` from lecture_2/main.py: the four age ranges. -/
def generate_profile (age : ℤ) : String :=
  if 0 ≤ age ∧ age ≤ 12 then "Child"
  else if 13 ≤ age ∧ age ≤ 19 then "Teenager"
  else if 20 ≤ age then "Adult"
  else "Unknown"

/-- The `user_profile` dictionary built in `main` of lecture_2/main.py. -/
structure UserProfile where
  name : String
  birth_year : ℤ
  age : ℤ
  life_stage : String
  hobbies : List String
  deriving DecidableEq, Repr

/-- The profile construction in `main` of lecture_2/main.py, as a function
of the entered name, birth year and hobbies: the age is computed as
`2025 - birth_year` (the literal constant 2025), and the life stage from
that age. -/
def build_profile (user_name : String) (birth_year : ℤ) (hobbies : List String) :
    UserProfile :=
  let current_age := 2025 - birth_year
  { name := user_name
    birth_year := birth_year
    age := current_age
    life_stage := generate_profile current_age
    hobbies := hobbies }

/-- Modelled from the spec: the spec's data model says the age is the
derived integer `current_year − birth_year`, where `current_year` is the
calendar year at the time the program runs (the code has no clock; it uses
a literal constant instead). -/
def claimed_age (current_year birth_year : ℤ) : ℤ :=
  current_year - birth_year

end Profile

namespace GradeTracker

/-- Unfolding of `validate_grade` into the range condition. -/
theorem validate_grade_iff (q : ℚ) : validate_grade q = true ↔ 0 ≤ q ∧ q ≤ 100 := by
  simp [validate_grade]

/-- C6: `calculate_average` returns `None` exactly on the empty list, and on
a nonempty list returns the arithmetic mean: the value `a` with
`a * length = sum`. -/
theorem calculate_average_correct (grades : List ℚ) :
    (calculate_average grades = none ↔ grades = []) ∧
    (grades ≠ [] → ∃ a, calculate_average grades = some a ∧
      a * (grades.length : ℚ) = grades.sum) := by
  constructor
  · simp [calculate_average, List.isEmpty_iff]
  · intro h
    refine ⟨grades.sum / grades.length, ?_, ?_⟩
    · simp [calculate_average, List.isEmpty_iff, h]
    · have hlen : (grades.length : ℚ) ≠ 0 := by
        exact Nat.cast_ne_zero.mpr (Nat.pos_iff_ne_zero.mp (List.length_pos_of_ne_nil h))
      field_simp

/-- Witness for C6 at the concrete grade list `[80, 90]`. -/
theorem calculate_average_correct_witness :
    ∃ a, calculate_average [(80 : ℚ), 90] = some a ∧
      a * (([(80 : ℚ), 90].length : ℕ) : ℚ) = [(80 : ℚ), 90].sum :=
  (calculate_average_correct [(80 : ℚ), 90]).2 (by decide)

/-- C4: `add_student` rejects exactly the non-alphabetic names and the
case-insensitive duplicates, leaving the roster unchanged; otherwise it
appends a new student with an empty grades list. -/
theorem add_student_correct (students : List Student) (name : PyStr) :
    ((add_student students name).2 = .added ↔
      validate_student_name name = true ∧ is_duplicate_student students name = false) ∧
    (validate_student_name name = false →
      add_student students name = (students, .invalidName)) ∧
    (validate_student_name name = true → is_duplicate_student students name = true →
      add_student students name = (students, .duplicate)) ∧
    (validate_student_name name = true → is_duplicate_student students name = false →
      add_student students name = (students ++ [{ name := name, grades := [] }], .added)) := by
  unfold add_student create_new_student
  rcases hv : validate_student_name name <;> rcases hd : is_duplicate_student students name <;>
    simp [hv, hd]

/-- Witness for C4: on a roster holding "John", the entered name "john" is
rejected as a duplicate and the roster is unchanged. -/
theorem add_student_correct_witness :
    add_student [{ name := "John".toList, grades := [] }] "john".toList =
      ([{ name := "John".toList, grades := [] }], .duplicate) :=
  (add_student_correct [{ name := "John".toList, grades := [] }] "john".toList).2.2.1
    (by decide) (by decide)

/-- C9: name validation accepts exactly the nonempty all-letter strings, so
the empty string and any name with a space, digit or other non-letter
character is rejected, and a two-word name like "John Smith" can never be
added to any roster. -/
theorem validate_student_name_letters_only :
    validate_student_name [] = false ∧
    (∀ name : PyStr, validate_student_name name = true ↔
      name ≠ [] ∧ ∀ c ∈ name, c.isAlpha = true) ∧
    (∀ name : PyStr, (∃ c ∈ name, c.isAlpha = false) →
      validate_student_name name = false) ∧
    (∀ students : List Student,
      add_student students "John Smith".toList = (students, .invalidName)) := by
  refine ⟨by decide, ?_, ?_, ?_⟩
  · intro name
    simp [validate_student_name, pyIsalpha, List.isEmpty_iff, List.all_eq_true]
  · intro name h
    rcases h with ⟨c, hc, hca⟩
    simp only [validate_student_name, pyIsalpha, Bool.and_eq_false_iff]
    right
    simp only [List.all_eq_false]
    exact ⟨c, hc, by simp [hca]⟩
  · intro students
    have hv : validate_student_name "John Smith".toList = false := by decide
    unfold add_student
    rw [hv]
    simp

/-- Witness for C9: the invalid name "John Smith" is rejected on the empty
roster, and "John1" fails validation because of the digit. -/
theorem validate_student_name_letters_only_witness :
    add_student [] "John Smith".toList = ([], .invalidName) ∧
    validate_student_name "John1".toList = false :=
  ⟨validate_student_name_letters_only.2.2.2 [],
    validate_student_name_letters_only.2.2.1 "John1".toList ⟨'1', by decide, by decide⟩⟩

/-- The grade-entry loop stops at an entered `'done'`. -/
theorem add_grades_go_stop (student : Student) (n : Nat) (raw : PyStr) (rest : List PyStr)
    (h : (get_grade_input raw).1 = "done".toList) :
    add_grades_go student n (raw :: rest) = (student, n) := by
  simp [add_grades_go, h]

/-- A grade input that fails to parse, or parses out of range, is skipped:
the loop state is exactly as it was before the attempt. -/
theorem add_grades_go_skip (student : Student) (n : Nat) (raw : PyStr) (rest : List PyStr)
    (hne : (get_grade_input raw).1 ≠ "done".toList)
    (h : (get_grade_input raw).2 = none ∨
      ∃ q, (get_grade_input raw).2 = some q ∧ validate_grade q = false) :
    add_grades_go student n (raw :: rest) = add_grades_go student n rest := by
  replace hne : (get_grade_input raw).1 ≠ ['d', 'o', 'n', 'e'] := by simpa using hne
  rcases h with h | ⟨q, hq, hv⟩
  · simp [add_grades_go, hne, h]
  · simp [add_grades_go, hne, hq, hv]

/-- A grade input that parses in range is appended and counted. -/
theorem add_grades_go_add (student : Student) (n : Nat) (raw : PyStr) (rest : List PyStr)
    (q : ℚ) (hne : (get_grade_input raw).1 ≠ "done".toList)
    (hq : (get_grade_input raw).2 = some q) (hv : validate_grade q = true) :
    add_grades_go student n (raw :: rest) =
      add_grades_go { student with grades := student.grades ++ [q] } (n + 1) rest := by
  replace hne : (get_grade_input raw).1 ≠ ['d', 'o', 'n', 'e'] := by simpa using hne
  simp [add_grades_go, hne, hq, hv]

/-- C5: one step of the grade-entry loop on a non-`'done'` input rejects it
exactly when it fails to parse or its value lies outside `[0, 100]`,
leaving the student's grades and the success count unchanged; otherwise it
appends the value and increments the count. -/
theorem grade_entry_step_correct (student : Student) (n : Nat) (raw : PyStr)
    (rest : List PyStr) (hne : (get_grade_input raw).1 ≠ "done".toList) :
    ((get_grade_input raw).2 = none →
      add_grades_go student n (raw :: rest) = add_grades_go student n rest) ∧
    (∀ q : ℚ, (get_grade_input raw).2 = some q → ¬(0 ≤ q ∧ q ≤ 100) →
      add_grades_go student n (raw :: rest) = add_grades_go student n rest) ∧
    (∀ q : ℚ, (get_grade_input raw).2 = some q → 0 ≤ q → q ≤ 100 →
      add_grades_go student n (raw :: rest) =
        add_grades_go { student with grades := student.grades ++ [q] } (n + 1) rest) := by
  refine ⟨fun h => add_grades_go_skip student n raw rest hne (Or.inl h), ?_, ?_⟩
  · intro q hq hr
    refine add_grades_go_skip student n raw rest hne (Or.inr ⟨q, hq, ?_⟩)
    exact Bool.eq_false_iff.mpr (fun hvt => hr ((validate_grade_iff q).mp hvt))
  · intro q hq h0 h1
    exact add_grades_go_add student n raw rest q hne hq ((validate_grade_iff q).mpr ⟨h0, h1⟩)

/-- Witness for C5: the input "105" is rejected (out of range), the input
"87.5" is appended, and the resulting average is 87.5. -/
theorem grade_entry_step_correct_witness :
    add_grades_go { name := "Ann".toList, grades := [] } 0 ["105".toList] =
      ({ name := "Ann".toList, grades := [] }, 0) ∧
    add_grades_go { name := "Ann".toList, grades := [] } 0 ["87.5".toList] =
      ({ name := "Ann".toList, grades := [(87.5 : ℚ)] }, 1) ∧
    calculate_average [(87.5 : ℚ)] = some 87.5 := by
  refine ⟨?_, ?_, by simp [calculate_average]⟩
  · have h := (grade_entry_step_correct { name := "Ann".toList, grades := [] } 0
        "105".toList [] (by decide)).2.1 105 (by decide) (by norm_num)
    exact h.trans rfl
  · have hp : (get_grade_input "87.5".toList).2 = some (87.5 : ℚ) := by
      have h0 : (get_grade_input "87.5".toList).2 =
          some ((natOfDigits ['8', '7'] : ℚ) + (natOfDigits ['5'] : ℚ) / (10 : ℚ) ^ 1) := rfl
      rw [h0]
      norm_num [show natOfDigits ['8', '7'] = 87 from by decide,
        show natOfDigits ['5'] = 5 from by decide]
    have h := (grade_entry_step_correct { name := "Ann".toList, grades := [] } 0
        "87.5".toList [] (by decide)).2.2 (87.5 : ℚ) hp (by norm_num) (by norm_num)
    exact h.trans rfl

/-- On a roster in which no name matches case-insensitively, the grade
mutation is the identity. -/
theorem update_first_match_id (name : PyStr) (inputs : List PyStr) :
    ∀ students : List Student, (∀ s ∈ students, pyLower s.name ≠ pyLower name) →
      update_first_match students name inputs = students := by
  intro students
  induction students with
  | nil => intro _; rfl
  | cons s rest ih =>
      intro h
      have hs : (pyLower s.name == pyLower name) = false := by
        simpa using h s (List.mem_cons_self s rest)
      simp [update_first_match, hs, ih (fun t ht => h t (List.mem_cons_of_mem s ht))]

/-- C10: every rejected operation is atomic: a rejected name leaves the
roster unchanged, `add_grades` on an empty roster or with an unknown name
leaves it unchanged, and a grade input that fails parsing or range
validation leaves the loop state unchanged. -/
theorem rejected_ops_atomic (students : List Student) (name : PyStr)
    (inputs : List PyStr) (student : Student) (n : Nat) (raw : PyStr) (rest : List PyStr) :
    (validate_student_name name = false ∨ is_duplicate_student students name = true →
      (add_student students name).1 = students) ∧
    (add_grades [] name inputs = []) ∧
    (find_student_by_name students name = none →
      add_grades students name inputs = students) ∧
    ((get_grade_input raw).1 ≠ "done".toList →
      ((get_grade_input raw).2 = none ∨
        ∃ q, (get_grade_input raw).2 = some q ∧ validate_grade q = false) →
      add_grades_go student n (raw :: rest) = add_grades_go student n rest) := by
  refine ⟨?_, rfl, ?_, fun hne h => add_grades_go_skip student n raw rest hne h⟩
  · rintro (h | h)
    · simp [add_student, h]
    · unfold add_student
      rcases hv : validate_student_name name <;> simp [hv, h]
  · intro h
    unfold add_grades
    split
    · rfl
    · apply update_first_match_id
      intro s hs
      have hfind := List.find?_eq_none.mp h s hs
      simpa using hfind

/-- Witness for C10: on the roster holding only "Bob", adding the duplicate
name "bob" leaves the roster unchanged, adding grades for the unknown name
"Alice" leaves it unchanged, and the out-of-range input "105" leaves the
grade-entry state unchanged. -/
theorem rejected_ops_atomic_witness :
    (add_student [{ name := "Bob".toList, grades := [50] }] "bob".toList).1 =
      [{ name := "Bob".toList, grades := [50] }] ∧
    add_grades [{ name := "Bob".toList, grades := [50] }] "Alice".toList ["50".toList] =
      [{ name := "Bob".toList, grades := [50] }] ∧
    add_grades_go { name := "Bob".toList, grades := [50] } 0 ["105".toList] =
      ({ name := "Bob".toList, grades := [50] }, 0) := by
  refine ⟨?_, ?_, ?_⟩
  · exact (rejected_ops_atomic [{ name := "Bob".toList, grades := [50] }] "bob".toList []
      { name := "Bob".toList, grades := [50] } 0 [] []).1 (Or.inr (by decide))
  · exact (rejected_ops_atomic [{ name := "Bob".toList, grades := [50] }] "Alice".toList
      ["50".toList] { name := "Bob".toList, grades := [50] } 0 [] []).2.2.1 (by decide)
  · have h := (rejected_ops_atomic [] [] [] { name := "Bob".toList, grades := [50] } 0
      "105".toList []).2.2.2 (by decide) (Or.inr ⟨105, by decide, by decide⟩)
    exact h.trans rfl

/-- The grade-entry loop never changes the student's name. -/
theorem add_grades_go_name (inputs : List PyStr) :
    ∀ (student : Student) (n : Nat),
      ((add_grades_go student n inputs).1).name = student.name := by
  induction inputs with
  | nil => intro student n; rfl
  | cons raw rest ih =>
      intro student n
      by_cases hd : (get_grade_input raw).1 = "done".toList
      · rw [add_grades_go_stop student n raw rest hd]
      · rcases hp : (get_grade_input raw).2 with _ | q
        · rw [add_grades_go_skip student n raw rest hd (Or.inl hp)]
          exact ih student n
        · rcases hv : validate_grade q
          · rw [add_grades_go_skip student n raw rest hd (Or.inr ⟨q, hp, hv⟩)]
            exact ih student n
          · rw [add_grades_go_add student n raw rest q hd hp hv]
            exact ih _ _

/-- Every grade in the loop's result was already present or passed
validation. -/
theorem add_grades_go_grades (inputs : List PyStr) :
    ∀ (student : Student) (n : Nat),
      ∀ g ∈ ((add_grades_go student n inputs).1).grades,
        g ∈ student.grades ∨ (0 ≤ g ∧ g ≤ 100) := by
  induction inputs with
  | nil => intro student n g hg; exact Or.inl hg
  | cons raw rest ih =>
      intro student n g hg
      by_cases hd : (get_grade_input raw).1 = "done".toList
      · rw [add_grades_go_stop student n raw rest hd] at hg
        exact Or.inl hg
      · rcases hp : (get_grade_input raw).2 with _ | q
        · rw [add_grades_go_skip student n raw rest hd (Or.inl hp)] at hg
          exact ih student n g hg
        · rcases hv : validate_grade q
          · rw [add_grades_go_skip student n raw rest hd (Or.inr ⟨q, hp, hv⟩)] at hg
            exact ih student n g hg
          · rw [add_grades_go_add student n raw rest q hd hp hv] at hg
            rcases ih _ _ g hg with h | h
            · rcases List.mem_append.mp h with h | h
              · exact Or.inl h
              · have hgq : g = q := by simpa using h
                exact Or.inr (hgq ▸ (validate_grade_iff q).mp hv)
            · exact Or.inr h

/-- The mutation of `add_grades` preserves the list of names. -/
theorem update_first_match_names (name : PyStr) (inputs : List PyStr) :
    ∀ students : List Student,
      (update_first_match students name inputs).map (fun s => s.name) =
        students.map (fun s => s.name) := by
  intro students
  induction students with
  | nil => rfl
  | cons s rest ih =>
      by_cases h : (pyLower s.name == pyLower name) = true
      · simp [update_first_match, h, add_grades_to_student, add_grades_go_name]
      · simp only [Bool.not_eq_true] at h
        simp [update_first_match, h, ih]

/-- The mutation of `add_grades` preserves the roster invariant. -/
theorem update_first_match_inv (name : PyStr) (inputs : List PyStr) :
    ∀ students : List Student, roster_invariant students →
      roster_invariant (update_first_match students name inputs) := by
  intro students
  induction students with
  | nil => intro h; exact h
  | cons s rest ih =>
      rintro ⟨h1, h2, h3⟩
      by_cases hm : (pyLower s.name == pyLower name) = true
      · simp only [update_first_match, hm, if_true]
        have hname : ((add_grades_to_student s inputs).1).name = s.name :=
          add_grades_go_name inputs s 0
        refine ⟨?_, ?_, ?_⟩
        · intro u hu
          rcases List.mem_cons.mp hu with rfl | hu
          · rw [hname]; exact h1 s (List.mem_cons_self s rest)
          · exact h1 u (List.mem_cons_of_mem s hu)
        · rw [List.pairwise_cons] at h2 ⊢
          refine ⟨?_, h2.2⟩
          intro b hb
          rw [hname]
          exact h2.1 b hb
        · intro u hu
          rcases List.mem_cons.mp hu with rfl | hu
          · intro g hg
            rcases add_grades_go_grades inputs s 0 g hg with h | h
            · exact h3 s (List.mem_cons_self s rest) g h
            · exact h
          · exact h3 u (List.mem_cons_of_mem s hu)
      · simp only [Bool.not_eq_true] at hm
        simp only [update_first_match, hm, Bool.false_eq_true, if_false]
        obtain ⟨k1, k2, k3⟩ := ih ⟨fun u hu => h1 u (List.mem_cons_of_mem s hu),
          (List.pairwise_cons.mp h2).2, fun u hu => h3 u (List.mem_cons_of_mem s hu)⟩
        refine ⟨?_, ?_, ?_⟩
        · intro u hu
          rcases List.mem_cons.mp hu with rfl | hu
          · exact h1 u (List.mem_cons_self u rest)
          · exact k1 u hu
        · rw [List.pairwise_cons]
          refine ⟨?_, k2⟩
          intro b hb
          have hmem : b.name ∈ rest.map (fun t => t.name) := by
            rw [← update_first_match_names name inputs rest]
            exact List.mem_map_of_mem _ hb
          rcases List.mem_map.mp hmem with ⟨c, hc, hcb⟩
          rw [← hcb]
          exact (List.pairwise_cons.mp h2).1 c hc
        · intro u hu
          rcases List.mem_cons.mp hu with rfl | hu
          · exact h3 u (List.mem_cons_self u rest)
          · exact k3 u hu

/-- `add_student` preserves the roster invariant. -/
theorem add_student_inv (students : List Student) (name : PyStr)
    (h : roster_invariant students) : roster_invariant (add_student students name).1 := by
  obtain ⟨h1, h2, h3⟩ := h
  unfold add_student
  by_cases hv : validate_student_name name = true
  · by_cases hd : is_duplicate_student students name = true
    · simp only [hv, hd, Bool.not_true, Bool.false_eq_true, if_false, if_true]
      exact ⟨h1, h2, h3⟩
    · simp only [Bool.not_eq_true] at hd
      simp only [hv, hd, Bool.not_true, Bool.false_eq_true, if_false]
      refine ⟨?_, ?_, ?_⟩
      · intro u hu
        rcases List.mem_append.mp hu with hu | hu
        · exact h1 u hu
        · have hu2 : u = create_new_student name := by simpa using hu
          rw [hu2]
          exact hv
      · rw [List.pairwise_append]
        refine ⟨h2, by simp, ?_⟩
        intro a ha b hb
        have hb2 : b = create_new_student name := by simpa using hb
        subst hb2
        have hane := List.any_eq_false.mp hd a ha
        simpa [create_new_student] using hane
      · intro u hu
        rcases List.mem_append.mp hu with hu | hu
        · exact h3 u hu
        · have hu2 : u = create_new_student name := by simpa using hu
          rw [hu2]
          intro g hg
          exact absurd hg (List.not_mem_nil g)
  · simp only [Bool.not_eq_true] at hv
    simp only [hv, Bool.not_false, if_true]
    exact ⟨h1, h2, h3⟩

/-- Each menu action preserves the roster invariant. -/
theorem apply_menu_op_inv (students : List Student) (op : MenuOp)
    (h : roster_invariant students) : roster_invariant (apply_menu_op students op) := by
  cases op with
  | addStudent name => exact add_student_inv students name h
  | addGrades name inputs =>
      show roster_invariant (add_grades students name inputs)
      unfold add_grades
      split
      · exact h
      · exact update_first_match_inv name inputs students h
  | showReport => exact h
  | findTopPerformer => exact h

/-- Folding menu actions from an invariant-satisfying roster stays within
the invariant. -/
theorem foldl_menu_inv (ops : List MenuOp) :
    ∀ students : List Student, roster_invariant students →
      roster_invariant (ops.foldl apply_menu_op students) := by
  induction ops with
  | nil => intro s h; exact h
  | cons op rest ih => intro s h; exact ih _ (apply_menu_op_inv s op h)

/-- C8: every roster reachable through any sequence of menu operations has
only purely alphabetic student names, pairwise case-insensitively distinct
names, and all grades within [0, 100]. -/
theorem run_menu_invariant (ops : List MenuOp) : roster_invariant (run_menu ops) :=
  foldl_menu_inv ops [] ⟨by simp, List.Pairwise.nil, by simp⟩

/-- Unfolding of the Python `max` fold over a cons cell. -/
theorem pyMaxQ_cons (a x : ℚ) (xs : List ℚ) :
    pyMaxQ a (x :: xs) = pyMaxQ (if a < x then x else a) xs := rfl

/-- Unfolding of the Python `min` fold over a cons cell. -/
theorem pyMinQ_cons (a x : ℚ) (xs : List ℚ) :
    pyMinQ a (x :: xs) = pyMinQ (if x < a then x else a) xs := rfl

/-- The Python `max` of a nonempty list is one of its elements. -/
theorem pyMaxQ_mem (l : List ℚ) : ∀ a : ℚ, pyMaxQ a l ∈ a :: l := by
  induction l with
  | nil => intro a; simp [pyMaxQ]
  | cons x xs ih =>
      intro a
      rw [pyMaxQ_cons]
      rcases List.mem_cons.mp (ih (if a < x then x else a)) with h | h
      · rw [h]
        split
        · exact List.mem_cons_of_mem a (List.mem_cons_self x xs)
        · exact List.mem_cons_self a (x :: xs)
      · exact List.mem_cons_of_mem a (List.mem_cons_of_mem x h)

/-- The Python `max` of a nonempty list bounds every element from above. -/
theorem pyMaxQ_ge (l : List ℚ) : ∀ a : ℚ, ∀ y ∈ a :: l, y ≤ pyMaxQ a l := by
  induction l with
  | nil =>
      intro a y hy
      have hya : y = a := by simpa using hy
      simp [pyMaxQ, hya]
  | cons x xs ih =>
      intro a y hy
      rw [pyMaxQ_cons]
      have hax : a ≤ (if a < x then x else a) := by
        by_cases hc : a < x
        · simp [hc, le_of_lt hc]
        · simp [hc]
      have hxx : x ≤ (if a < x then x else a) := by
        by_cases hc : a < x
        · simp [hc]
        · simp [hc, le_of_not_lt hc]
      have hhead := ih (if a < x then x else a) _ (List.mem_cons_self _ xs)
      rcases List.mem_cons.mp hy with rfl | hy2
      · exact le_trans hax hhead
      · rcases List.mem_cons.mp hy2 with rfl | hy3
        · exact le_trans hxx hhead
        · exact ih _ y (List.mem_cons_of_mem _ hy3)

/-- The Python `min` of a nonempty list is one of its elements. -/
theorem pyMinQ_mem (l : List ℚ) : ∀ a : ℚ, pyMinQ a l ∈ a :: l := by
  induction l with
  | nil => intro a; simp [pyMinQ]
  | cons x xs ih =>
      intro a
      rw [pyMinQ_cons]
      rcases List.mem_cons.mp (ih (if x < a then x else a)) with h | h
      · rw [h]
        split
        · exact List.mem_cons_of_mem a (List.mem_cons_self x xs)
        · exact List.mem_cons_self a (x :: xs)
      · exact List.mem_cons_of_mem a (List.mem_cons_of_mem x h)

/-- The Python `min` of a nonempty list bounds every element from below. -/
theorem pyMinQ_le (l : List ℚ) : ∀ a : ℚ, ∀ y ∈ a :: l, pyMinQ a l ≤ y := by
  induction l with
  | nil =>
      intro a y hy
      have hya : y = a := by simpa using hy
      simp [pyMinQ, hya]
  | cons x xs ih =>
      intro a y hy
      rw [pyMinQ_cons]
      have hax : (if x < a then x else a) ≤ a := by
        by_cases hc : x < a
        · simp [hc, le_of_lt hc]
        · simp [hc]
      have hxx : (if x < a then x else a) ≤ x := by
        by_cases hc : x < a
        · simp [hc]
        · simp [hc, le_of_not_lt hc]
      have hhead := ih (if x < a then x else a) _ (List.mem_cons_self _ xs)
      rcases List.mem_cons.mp hy with rfl | hy2
      · exact le_trans hhead hax
      · rcases List.mem_cons.mp hy2 with rfl | hy3
        · exact le_trans hhead hxx
        · exact ih _ y (List.mem_cons_of_mem _ hy3)

/-- The collected averages are exactly the per-student averages of the
students with at least one grade, in roster order. -/
theorem roster_averages_eq (students : List Student) :
    roster_averages students = (students_with_grades students).map avgKey := by
  induction students with
  | nil => rfl
  | cons s rest ih =>
      unfold roster_averages students_with_grades at ih ⊢
      by_cases h : s.grades.isEmpty = true
      · have hnone : calculate_average s.grades = none := by
          simp [calculate_average, h]
        simp [List.filterMap_cons, List.filter_cons, h, hnone, ih]
      · simp only [Bool.not_eq_true] at h
        have hsome : calculate_average s.grades =
            some (s.grades.sum / (s.grades.length : ℚ)) := by
          simp [calculate_average, h]
        have havg : avgKey s = s.grades.sum / (s.grades.length : ℚ) := by
          simp [avgKey, hsome]
        simp [List.filterMap_cons, List.filter_cons, h, hsome, havg, ih]

/-- C1: when no student has any grade all three summary fields are `None`;
otherwise `highest` is the maximum of the per-student averages, `lowest`
their minimum, and `overall` the arithmetic mean of the averages list,
which holds exactly the per-student averages of the students with at least
one grade (not the individual grades). -/
theorem calculate_summary_statistics_correct (students : List Student) :
    ((∀ s ∈ students, s.grades = []) →
      calculate_summary_statistics students = ⟨none, none, none⟩) ∧
    ((∃ s ∈ students, s.grades ≠ []) →
      ∃ hi lo : ℚ,
        calculate_summary_statistics students =
          ⟨some hi, some lo,
            some ((roster_averages students).sum / ((roster_averages students).length : ℚ))⟩ ∧
        hi ∈ roster_averages students ∧ (∀ v ∈ roster_averages students, v ≤ hi) ∧
        lo ∈ roster_averages students ∧ (∀ v ∈ roster_averages students, lo ≤ v) ∧
        roster_averages students = (students_with_grades students).map avgKey) := by
  constructor
  · intro h
    have hnil : roster_averages students = [] := by
      unfold roster_averages
      rw [List.filterMap_eq_nil_iff]
      intro s hs
      simp [calculate_average, h s hs]
    unfold calculate_summary_statistics
    rw [hnil]
  · rintro ⟨s, hs, hgr⟩
    have hmem : s ∈ students_with_grades students := by
      unfold students_with_grades
      rw [List.mem_filter]
      refine ⟨hs, ?_⟩
      simp [List.isEmpty_iff, hgr]
    have hne : roster_averages students ≠ [] := by
      rw [roster_averages_eq]
      intro hc
      rw [List.map_eq_nil_iff] at hc
      rw [hc] at hmem
      exact absurd hmem (List.not_mem_nil s)
    rcases hl : roster_averages students with _ | ⟨a, rest⟩
    · exact absurd hl hne
    · refine ⟨pyMaxQ a rest, pyMinQ a rest, ?_, pyMaxQ_mem rest a,
        fun v hv => pyMaxQ_ge rest a v hv, pyMinQ_mem rest a,
        fun v hv => pyMinQ_le rest a v hv, hl ▸ roster_averages_eq students⟩
      unfold calculate_summary_statistics
      rw [hl]

/-- Witness for C1 at the roster with per-student averages 80 and 90: the
theorem applies, and the summary evaluates to highest 90, lowest 80,
overall 85. -/
theorem calculate_summary_statistics_correct_witness :
    (∃ hi lo : ℚ,
      calculate_summary_statistics
          [{ name := "A".toList, grades := [80] }, { name := "B".toList, grades := [90] }] =
        ⟨some hi, some lo,
          some ((roster_averages
              [{ name := "A".toList, grades := [80] }, { name := "B".toList, grades := [90] }]).sum /
            ((roster_averages
              [{ name := "A".toList, grades := [80] }, { name := "B".toList, grades := [90] }]).length : ℚ))⟩ ∧
      hi ∈ roster_averages
          [{ name := "A".toList, grades := [80] }, { name := "B".toList, grades := [90] }] ∧
      (∀ v ∈ roster_averages
          [{ name := "A".toList, grades := [80] }, { name := "B".toList, grades := [90] }], v ≤ hi) ∧
      lo ∈ roster_averages
          [{ name := "A".toList, grades := [80] }, { name := "B".toList, grades := [90] }] ∧
      (∀ v ∈ roster_averages
          [{ name := "A".toList, grades := [80] }, { name := "B".toList, grades := [90] }], lo ≤ v) ∧
      roster_averages
          [{ name := "A".toList, grades := [80] }, { name := "B".toList, grades := [90] }] =
        (students_with_grades
          [{ name := "A".toList, grades := [80] }, { name := "B".toList, grades := [90] }]).map avgKey) ∧
    calculate_summary_statistics
        [{ name := "A".toList, grades := [80] }, { name := "B".toList, grades := [90] }] =
      ⟨some 90, some 80, some 85⟩ := by
  constructor
  · exact (calculate_summary_statistics_correct
      [{ name := "A".toList, grades := [80] }, { name := "B".toList, grades := [90] }]).2
      (by decide)
  · have h80 : calculate_average [(80 : ℚ)] = some 80 := by simp [calculate_average]
    have h90 : calculate_average [(90 : ℚ)] = some 90 := by simp [calculate_average]
    have hav : roster_averages
        [{ name := "A".toList, grades := [80] }, { name := "B".toList, grades := [90] }] =
        [80, 90] := by
      simp [roster_averages, List.filterMap_cons, h80, h90]
    unfold calculate_summary_statistics
    rw [hav]
    norm_num [pyMaxQ, pyMinQ]

/-- For a student with at least one grade, `calculate_average` returns
exactly the sort key used by the top-performer search. -/
theorem calculate_average_eq_avgKey (s : Student) (h : ¬s.grades.isEmpty = true) :
    calculate_average s.grades = some (avgKey s) := by
  simp only [Bool.not_eq_true] at h
  simp [calculate_average, avgKey, h]

/-- Characterization of the Python `max(..., key=...)` fold: either the
initial element is kept and its key bounds every list element, or the
result is the element at the first index attaining the strict maximum over
the initial element and all earlier elements. -/
theorem pyMaxBy_spec {α : Type} (key : α → ℚ) (l : List α) :
    ∀ a : α, (pyMaxBy key a l = a ∧ ∀ x ∈ l, key x ≤ key a) ∨
      (∃ i : Nat, ∃ hi : i < l.length,
        pyMaxBy key a l = l.get ⟨i, hi⟩ ∧
        key a < key (l.get ⟨i, hi⟩) ∧
        (∀ x ∈ l, key x ≤ key (l.get ⟨i, hi⟩)) ∧
        (∀ j : Nat, ∀ hj : j < l.length, j < i →
          key (l.get ⟨j, hj⟩) < key (l.get ⟨i, hi⟩))) := by
  induction l with
  | nil => intro a; left; exact ⟨rfl, by simp⟩
  | cons x xs ih =>
      intro a
      have hcons : pyMaxBy key a (x :: xs) = pyMaxBy key (if key a < key x then x else a) xs := rfl
      by_cases hax : key a < key x
      · rw [hcons, if_pos hax]
        rcases ih x with ⟨h1, h2⟩ | ⟨i, hi, h1, h2, h3, h4⟩
        · right
          refine ⟨0, by simp, ?_, ?_, ?_, ?_⟩
          · simpa using h1
          · simpa using hax
          · intro y hy
            rcases List.mem_cons.mp hy with rfl | hy2
            · simp
            · simpa using h2 y hy2
          · intro j hj hj0
            exact absurd hj0 (Nat.not_lt_zero j)
        · right
          refine ⟨i + 1, by simpa using Nat.succ_lt_succ hi, ?_, ?_, ?_, ?_⟩
          · simpa using h1
          · simpa using lt_trans hax h2
          · intro y hy
            rcases List.mem_cons.mp hy with rfl | hy2
            · simpa using le_of_lt h2
            · simpa using h3 y hy2
          · intro j hj hji
            rcases j with _ | j2
            · simpa using h2
            · have hj2 : j2 < xs.length := by simpa using hj
              have hji2 : j2 < i := Nat.lt_of_succ_lt_succ hji
              simpa using h4 j2 hj2 hji2
      · rw [hcons, if_neg hax]
        have hxa : key x ≤ key a := le_of_not_lt hax
        rcases ih a with ⟨h1, h2⟩ | ⟨i, hi, h1, h2, h3, h4⟩
        · left
          refine ⟨h1, ?_⟩
          intro y hy
          rcases List.mem_cons.mp hy with rfl | hy2
          · exact hxa
          · exact h2 y hy2
        · right
          refine ⟨i + 1, by simpa using Nat.succ_lt_succ hi, ?_, ?_, ?_, ?_⟩
          · simpa using h1
          · simpa using h2
          · intro y hy
            rcases List.mem_cons.mp hy with rfl | hy2
            · simpa using le_trans hxa (le_of_lt h2)
            · simpa using h3 y hy2
          · intro j hj hji
            rcases j with _ | j2
            · simpa using lt_of_le_of_lt hxa h2
            · have hj2 : j2 < xs.length := by simpa using hj
              have hji2 : j2 < i := Nat.lt_of_succ_lt_succ hji
              simpa using h4 j2 hj2 hji2

/-- C2: when no student has any grade the top-performer search returns
`(None, None)`; otherwise it returns a student with grades together with
that student's average, the average is maximal among the students with
grades, and the student sits at the first index of the filtered roster
attaining the maximum (ties broken by iteration order). -/
theorem find_top_performer_data_correct (students : List Student) :
    ((∀ s ∈ students, s.grades = []) → find_top_performer_data students = (none, none)) ∧
    ((∃ s ∈ students, s.grades ≠ []) →
      ∃ t : Student,
        find_top_performer_data students = (some t, calculate_average t.grades) ∧
        calculate_average t.grades = some (avgKey t) ∧
        t ∈ students_with_grades students ∧
        (∀ s ∈ students_with_grades students, avgKey s ≤ avgKey t) ∧
        ∃ i : Nat, ∃ hi : i < (students_with_grades students).length,
          (students_with_grades students).get ⟨i, hi⟩ = t ∧
          ∀ j : Nat, ∀ hj : j < (students_with_grades students).length, j < i →
            avgKey ((students_with_grades students).get ⟨j, hj⟩) < avgKey t) := by
  constructor
  · intro h
    have hnil : students_with_grades students = [] := by
      unfold students_with_grades
      rw [List.filter_eq_nil_iff]
      intro s hs
      simp [h s hs]
    unfold find_top_performer_data
    rw [hnil]
  · rintro ⟨s, hs, hgr⟩
    have hmem : s ∈ students_with_grades students := by
      unfold students_with_grades
      rw [List.mem_filter]
      refine ⟨hs, ?_⟩
      simp [List.isEmpty_iff, hgr]
    have hne : students_with_grades students ≠ [] := by
      intro hc
      rw [hc] at hmem
      exact absurd hmem (List.not_mem_nil s)
    rcases hl : students_with_grades students with _ | ⟨s0, rest⟩
    · exact absurd hl hne
    · have heq : find_top_performer_data students =
          (some (pyMaxBy avgKey s0 rest), calculate_average (pyMaxBy avgKey s0 rest).grades) := by
        unfold find_top_performer_data
        rw [hl]
      have hnonempty : ∀ u ∈ s0 :: rest, ¬u.grades.isEmpty = true := by
        intro u hu
        have hu2 : u ∈ students_with_grades students := by rw [hl]; exact hu
        unfold students_with_grades at hu2
        have := (List.mem_filter.mp hu2).2
        simpa using this
      rcases pyMaxBy_spec avgKey rest s0 with ⟨h1, h2⟩ | ⟨i, hi, h1, h2, h3, h4⟩
      · refine ⟨s0, ?_, ?_, List.mem_cons_self s0 rest, ?_, 0, by simp, rfl, ?_⟩
        · rw [heq, h1]
        · exact calculate_average_eq_avgKey s0 (hnonempty s0 (List.mem_cons_self s0 rest))
        · intro u hu
          rcases List.mem_cons.mp hu with rfl | hu2
          · exact le_refl _
          · exact h2 u hu2
        · intro j hj hj0
          exact absurd hj0 (Nat.not_lt_zero j)
      · have hmem2 : rest.get ⟨i, hi⟩ ∈ s0 :: rest :=
          List.mem_cons_of_mem s0 (List.get_mem rest i hi)
        refine ⟨rest.get ⟨i, hi⟩, ?_, ?_, hmem2, ?_,
          i + 1, by simpa using Nat.succ_lt_succ hi, ?_, ?_⟩
        · rw [heq, h1]
        · exact calculate_average_eq_avgKey _ (hnonempty _ hmem2)
        · intro u hu
          rcases List.mem_cons.mp hu with rfl | hu2
          · exact le_of_lt h2
          · exact h3 u hu2
        · simp
        · intro j hj hji
          rcases j with _ | j2
          · simpa using h2
          · have hj2 : j2 < rest.length := by simpa using hj
            have hji2 : j2 < i := Nat.lt_of_succ_lt_succ hji
            simpa using h4 j2 hj2 hji2

/-- Witness for C2 at the roster with averages 70 and 95: the theorem
applies, and the returned top performer is the 95-average student. -/
theorem find_top_performer_data_correct_witness :
    (∃ t : Student,
      find_top_performer_data
          [{ name := "A".toList, grades := [70] }, { name := "B".toList, grades := [95] }] =
        (some t, calculate_average t.grades) ∧
      calculate_average t.grades = some (avgKey t) ∧
      t ∈ students_with_grades
          [{ name := "A".toList, grades := [70] }, { name := "B".toList, grades := [95] }] ∧
      (∀ s ∈ students_with_grades
          [{ name := "A".toList, grades := [70] }, { name := "B".toList, grades := [95] }],
        avgKey s ≤ avgKey t) ∧
      ∃ i : Nat, ∃ hi : i < (students_with_grades
          [{ name := "A".toList, grades := [70] }, { name := "B".toList, grades := [95] }]).length,
        (students_with_grades
          [{ name := "A".toList, grades := [70] }, { name := "B".toList, grades := [95] }]).get
            ⟨i, hi⟩ = t ∧
        ∀ j : Nat, ∀ hj : j < (students_with_grades
          [{ name := "A".toList, grades := [70] }, { name := "B".toList, grades := [95] }]).length,
          j < i →
          avgKey ((students_with_grades
            [{ name := "A".toList, grades := [70] }, { name := "B".toList, grades := [95] }]).get
              ⟨j, hj⟩) < avgKey t) ∧
    (find_top_performer_data
        [{ name := "A".toList, grades := [70] }, { name := "B".toList, grades := [95] }]).1 =
      some { name := "B".toList, grades := [95] } := by
  constructor
  · exact (find_top_performer_data_correct
      [{ name := "A".toList, grades := [70] }, { name := "B".toList, grades := [95] }]).2
      (by decide)
  · have hA : avgKey { name := "A".toList, grades := [70] } = 70 := by
      simp [avgKey, calculate_average]
    have hB : avgKey { name := "B".toList, grades := [95] } = 95 := by
      simp [avgKey, calculate_average]
    have hswg : students_with_grades
        [{ name := "A".toList, grades := [70] }, { name := "B".toList, grades := [95] }] =
        [{ name := "A".toList, grades := [70] }, { name := "B".toList, grades := [95] }] := by
      decide
    have hfold : pyMaxBy avgKey { name := "A".toList, grades := [70] }
        [{ name := "B".toList, grades := [95] }] = { name := "B".toList, grades := [95] } := by
      unfold pyMaxBy
      simp only [List.foldl_cons, List.foldl_nil, hA, hB]
      norm_num
    unfold find_top_performer_data
    rw [hswg]
    show some (pyMaxBy avgKey { name := "A".toList, grades := [70] }
        [{ name := "B".toList, grades := [95] }]) =
      some { name := "B".toList, grades := [95] }
    rw [hfold]

end GradeTracker

namespace Profile

/-- C3: the age classifier is total and returns exactly one of the four
labels by range: Child on [0,12], Teenager on [13,19], Adult on [20,∞),
Unknown on negative ages. -/
theorem generate_profile_correct (a : ℤ) :
    (0 ≤ a ∧ a ≤ 12 → generate_profile a = "Child") ∧
    (13 ≤ a ∧ a ≤ 19 → generate_profile a = "Teenager") ∧
    (20 ≤ a → generate_profile a = "Adult") ∧
    (a < 0 → generate_profile a = "Unknown") ∧
    (generate_profile a = "Child" ∨ generate_profile a = "Teenager" ∨
      generate_profile a = "Adult" ∨ generate_profile a = "Unknown") := by
  unfold generate_profile
  refine ⟨?_, ?_, ?_, ?_, ?_⟩ <;>
    split_ifs with h1 h2 h3 <;>
    first
      | rfl
      | (intro h; omega)
      | tauto

/-- Witness for C3 at the boundary ages 12, 13 and -1. -/
theorem generate_profile_correct_witness :
    generate_profile 12 = "Child" ∧ generate_profile 13 = "Teenager" ∧
      generate_profile (-1) = "Unknown" :=
  ⟨(generate_profile_correct 12).1 (by decide),
    (generate_profile_correct 13).2.1 (by decide),
    (generate_profile_correct (-1)).2.2.2.1 (by decide)⟩

/-- C7 (counterexample): the program computes the age from the hardcoded
constant 2025, not from the current calendar year: at birth year 2000 the
profile's age is 25, while current_year − birth_year evaluated at the
calendar year 2026 is 26. -/
theorem build_profile_age_counterexample :
    (build_profile "Ann" 2000 []).age ≠ claimed_age 2026 2000 := by decide

/-- C7 (amended): for every entered birth year the profile's age is the
constant 2025 minus the birth year, and the printed life stage derives
from that age value. -/
theorem build_profile_age_correct (user_name : String) (birth_year : ℤ)
    (hobbies : List String) :
    (build_profile user_name birth_year hobbies).age = 2025 - birth_year ∧
    (build_profile user_name birth_year hobbies).life_stage =
      generate_profile ((build_profile user_name birth_year hobbies).age) :=
  ⟨rfl, rfl⟩

end Profile
